import Mathlib

/-!
Shallow embedding of the `sqlgen` code generator
(package `internal/generator`, file `generator.go`, primary variant with
unsigned support, plus the second variant's import collection where a claim
refers to it; column/table records from `internal/schema/reader.go`).

Strings are Lean `String`s; where the Go code walks runes we work on the
underlying `List Char`.  Go's `unicode.IsUpper`, `unicode.ToLower` and
`strings.ToUpper` are modelled on their ASCII fragment (byte values 65-90
and 97-122), which is exact for the ASCII identifiers the tool handles;
Go's full Unicode case tables are outside the embedding.
-/

/-- ASCII model of Go `unicode.IsUpper`: true exactly on bytes 65..90,
i.e. characters between A and Z. -/
def goIsUpper (c : Char) : Bool :=
  decide (65 ≤ c.toNat ∧ c.toNat ≤ 90)

/-- ASCII model of Go `unicode.ToLower`: shift an uppercase ASCII letter
down into a..z (add 32), leave everything else unchanged. -/
def goToLower (c : Char) : Char :=
  if 65 ≤ c.toNat ∧ c.toNat ≤ 90 then Char.ofNat (c.toNat + 32) else c

/-- ASCII model of Go `strings.ToUpper` applied to a one-character string:
shift a lowercase ASCII letter up into A..Z (subtract 32), leave everything
else unchanged. -/
def goToUpper (c : Char) : Char :=
  if 97 ≤ c.toNat ∧ c.toNat ≤ 122 then Char.ofNat (c.toNat - 32) else c

/-- Model of Go `strings.Split(s, "_")`: the list of the segments of `s`
between underscores.  Splitting the empty string gives one empty segment,
as in Go. -/
def splitUnderscore : List Char → List (List Char)
  | [] => [[]]
  | c :: cs =>
    if c = '_' then [] :: splitUnderscore cs
    else
      match splitUnderscore cs with
      | [] => [[c]]
      | p :: ps => (c :: p) :: ps

/-- One segment of `toCamelCase`: Go's
`parts[i] = strings.ToUpper(parts[i][:1]) + parts[i][1:]` guarded by
`len(parts[i]) > 0`. -/
def camelSegment : List Char → List Char
  | [] => []
  | c :: cs => goToUpper c :: cs

/-- Embedding of `toCamelCase` (generator.go): split on underscore,
uppercase the first character of every non-empty segment, join with no
separator. -/
def toCamelCaseL (s : List Char) : List Char :=
  ((splitUnderscore s).map camelSegment).flatten

/-- String-level wrapper for `toCamelCase`. -/
def toCamelCase (s : String) : String :=
  ⟨toCamelCaseL s.data⟩

/-- Embedding of the loop body of `toSnakeCase` (generator.go): the first
argument is the position of the current character, mirroring Go's
`for i, r := range s` where only `i > 0` versus `i == 0` is ever used. -/
def snakeGo : Nat → List Char → List Char
  | _, [] => []
  | i, r :: rest =>
    (if goIsUpper r then (if i > 0 then ['_'] else []) ++ [goToLower r] else [r])
      ++ snakeGo (i + 1) rest

/-- Embedding of `toSnakeCase` (generator.go): scan the characters from
position 0, replacing each uppercase letter by its lowercase form, preceded
by an underscore except at position 0. -/
def toSnakeCaseL (s : List Char) : List Char :=
  snakeGo 0 s

/-- String-level wrapper for `toSnakeCase`. -/
def toSnakeCase (s : String) : String :=
  ⟨toSnakeCaseL s.data⟩

/-- Embedding of the `switch dataType` block of `mysqlTypeToGo`
(generator.go, primary variant): the base Go type before the nullability
wrapping.  Go's multi-value `case "a", "b":` arms are rendered as one
equality test per value, in the switch's order. -/
def mysqlBaseType (dataType : String) (unsigned : Bool) : String :=
  if dataType = "tinyint" then (if unsigned then "uint8" else "int8")
  else if dataType = "smallint" then (if unsigned then "uint16" else "int16")
  else if dataType = "mediumint" then (if unsigned then "uint32" else "int32")
  else if dataType = "int" then (if unsigned then "uint32" else "int32")
  else if dataType = "integer" then (if unsigned then "uint32" else "int32")
  else if dataType = "bigint" then (if unsigned then "uint64" else "int64")
  else if dataType = "float" then "float32"
  else if dataType = "double" then "float64"
  else if dataType = "real" then "float64"
  else if dataType = "decimal" then "float64"
  else if dataType = "numeric" then "float64"
  else if dataType = "char" then "string"
  else if dataType = "varchar" then "string"
  else if dataType = "text" then "string"
  else if dataType = "tinytext" then "string"
  else if dataType = "mediumtext" then "string"
  else if dataType = "longtext" then "string"
  else if dataType = "enum" then "string"
  else if dataType = "set" then "string"
  else if dataType = "binary" then "[]byte"
  else if dataType = "varbinary" then "[]byte"
  else if dataType = "blob" then "[]byte"
  else if dataType = "tinyblob" then "[]byte"
  else if dataType = "mediumblob" then "[]byte"
  else if dataType = "longblob" then "[]byte"
  else if dataType = "datetime" then "time.Time"
  else if dataType = "timestamp" then "time.Time"
  else if dataType = "date" then "time.Time"
  else if dataType = "time" then "time.Time"
  else if dataType = "year" then (if unsigned then "uint16" else "int16")
  else if dataType = "bit" then "[]byte"
  else if dataType = "json" then "string"
  else "string"

/-- Embedding of the `if nullable` switch at the end of `mysqlTypeToGo`
(generator.go, primary variant): pointer-wrap scalar types, leave byte
slices alone, fall through to the unwrapped type otherwise. -/
def nullableWrap (goType : String) : String :=
  if goType = "int8" then "*" ++ goType
  else if goType = "int16" then "*" ++ goType
  else if goType = "int32" then "*" ++ goType
  else if goType = "int64" then "*" ++ goType
  else if goType = "uint8" then "*" ++ goType
  else if goType = "uint16" then "*" ++ goType
  else if goType = "uint32" then "*" ++ goType
  else if goType = "uint64" then "*" ++ goType
  else if goType = "float32" then "*" ++ goType
  else if goType = "float64" then "*" ++ goType
  else if goType = "string" then "*string"
  else if goType = "[]byte" then "[]byte"
  else if goType = "time.Time" then "*time.Time"
  else goType

/-- Embedding of `mysqlTypeToGo` (generator.go, primary variant): compute
the base Go type from the switch, then apply the nullability wrapping when
`nullable` is set. -/
def mysqlTypeToGo (dataType : String) (nullable unsigned : Bool) : String :=
  let goType := mysqlBaseType dataType unsigned
  if nullable then nullableWrap goType else goType

/-- Base-type mapping written from the mapping table of spec section 4.1,
row by row (refinement reference for the claim about the mapping table):
each raw-type family row with its signed/unsigned base type, and the
fallback row sending anything unrecognized to string. -/
def specBaseType (rawType : String) (unsigned : Bool) : String :=
  if rawType = "tinyint" then (if unsigned then "uint8" else "int8")
  else if rawType = "smallint" then (if unsigned then "uint16" else "int16")
  else if rawType = "mediumint" then (if unsigned then "uint32" else "int32")
  else if rawType = "int" then (if unsigned then "uint32" else "int32")
  else if rawType = "integer" then (if unsigned then "uint32" else "int32")
  else if rawType = "bigint" then (if unsigned then "uint64" else "int64")
  else if rawType = "float" then "float32"
  else if rawType = "double" then "float64"
  else if rawType = "real" then "float64"
  else if rawType = "decimal" then "float64"
  else if rawType = "numeric" then "float64"
  else if rawType = "char" then "string"
  else if rawType = "varchar" then "string"
  else if rawType = "text" then "string"
  else if rawType = "tinytext" then "string"
  else if rawType = "mediumtext" then "string"
  else if rawType = "longtext" then "string"
  else if rawType = "enum" then "string"
  else if rawType = "set" then "string"
  else if rawType = "json" then "string"
  else if rawType = "binary" then "[]byte"
  else if rawType = "varbinary" then "[]byte"
  else if rawType = "blob" then "[]byte"
  else if rawType = "tinyblob" then "[]byte"
  else if rawType = "mediumblob" then "[]byte"
  else if rawType = "longblob" then "[]byte"
  else if rawType = "bit" then "[]byte"
  else if rawType = "datetime" then "time.Time"
  else if rawType = "timestamp" then "time.Time"
  else if rawType = "date" then "time.Time"
  else if rawType = "time" then "time.Time"
  else if rawType = "year" then (if unsigned then "uint16" else "int16")
  else "string"

/-- Column descriptor from `internal/schema/reader.go`, with the
`IsUnsigned` field the primary generator variant and the schema tests use. -/
structure Column where
  Name : String
  DataType : String
  IsNullable : Bool
  IsUnsigned : Bool
  ColumnKey : String
  Extra : String
  Comment : String
deriving DecidableEq, Repr

/-- Table descriptor from `internal/schema/reader.go`: name plus columns in
ordinal order. -/
structure Table where
  Name : String
  Columns : List Column
deriving DecidableEq, Repr

/-- Generator configuration from `generator.go` (primary variant): package
name, output directory, force flag, optional confirmation callback. -/
structure Generator where
  packageName : String
  outputDir : String
  force : Bool
  confirmFunc : Option (String → Bool)

/-- Timestamp-family check shared by `collectImports` and the variant-2
nullable-import rule: Go's `case "datetime", "timestamp", "date", "time":`. -/
def isTimeType (dataType : String) : Bool :=
  decide (dataType = "datetime" ∨ dataType = "timestamp" ∨
    dataType = "date" ∨ dataType = "time")

/-- Insertion of a key into a Go map modelled as a duplicate-free list of
keys in insertion order (`imports[k] = true`). -/
def insertKey (k : String) (m : List String) : List String :=
  if k ∈ m then m else m ++ [k]

/-- Key set built by `collectImports` (generator.go, primary variant): one
pass over the columns adding "time" for every timestamp-family column. -/
def collectImportsKeys (cols : List Column) : List String :=
  cols.foldl (fun m col => if isTimeType col.DataType then insertKey "time" m else m) []

/-- Embedding of `collectImports` (generator.go, primary variant).  Go
iterates the map in unspecified order; the map here never holds more than
the single key "time", so every enumeration equals the insertion-order
list and the function below is the unique possible result (proved in the
import-determinism theorem). -/
def collectImports (cols : List Column) : List String :=
  collectImportsKeys cols

/-- Key set built by `collectImports` of the second generator variant: one
pass adding "time" for timestamp-family columns and "database/sql" for
nullable timestamp-family columns (its `decimal, numeric` arm adds
nothing). -/
def collectImportsKeys2 (cols : List Column) : List String :=
  cols.foldl
    (fun m col =>
      let m := if isTimeType col.DataType then insertKey "time" m else m
      if col.IsNullable && isTimeType col.DataType then insertKey "database/sql" m else m)
    []

/-- Admissible result of Go's `for imp := range imports` over a map with
key list `keys`: each key enumerated exactly once, in some order the
language leaves unspecified. -/
def mapRangeResult (keys result : List String) : Prop :=
  result.Perm keys

/-- One rendered struct field line from the loop body of `generateStruct`:
`"\t%s %s %s\n"` with camel-cased name, mapped type, and a db tag holding
the exact original column name. -/
def fieldLine (col : Column) : String :=
  "\t" ++ toCamelCase col.Name ++ " "
    ++ mysqlTypeToGo col.DataType col.IsNullable col.IsUnsigned
    ++ " `db:\"" ++ col.Name ++ "\"`\n"

/-- Import block of `generateStruct`: nothing when there are no imports,
otherwise an `import ( ... )` group quoting each import path. -/
def importBlock (imports : List String) : String :=
  if imports.length > 0 then
    "import (\n" ++ String.join (imports.map (fun imp => "\t\"" ++ imp ++ "\"\n")) ++ ")\n\n"
  else ""

/-- Body of the struct declaration: the field lines accumulated by the
column loop of `generateStruct`, modelled as the fold the Go loop performs
on its buffer. -/
def structFieldsText (cols : List Column) : String :=
  cols.foldl (fun buf col => buf ++ fieldLine col) ""

/-- Embedding of `Generator.generateStruct` (generator.go, primary
variant): package clause, import block, then the struct declaration with
one field line per column. -/
def generateStruct (g : Generator) (table : Table) : String :=
  "package " ++ g.packageName ++ "\n\n"
    ++ importBlock (collectImports table.Columns)
    ++ "type " ++ toCamelCase table.Name ++ " struct \x7b\n"
    ++ structFieldsText table.Columns
    ++ "\x7d\n"

/-- Outcome of `Generator.Generate`: `ok` for a nil error, `errSkipped` for
the distinguished `ErrSkipped` value returned when the user declines the
overwrite. -/
inductive GenResult where
  | ok
  | errSkipped
deriving DecidableEq, Repr

/-- Observable effect of one `Generate` call on the target file: the
outcome, the file contents afterwards, and how many times the confirmation
callback was invoked. -/
structure WriteOutcome where
  result : GenResult
  file : Option String
  confirmCalls : Nat
deriving Repr

/-- Target path of `Generate`: `filepath.Join(outputDir, toSnakeCase(name) + ".go")`. -/
def targetPath (g : Generator) (table : Table) : String :=
  g.outputDir ++ "/" ++ toSnakeCase table.Name ++ ".go"

/-- Embedding of the file-materialization tail of `Generator.Generate`
(generator.go, primary variant, lines after formatting): if the target file
exists and force is unset and a confirmation callback is configured, ask
once and return `ErrSkipped` on refusal leaving the file untouched;
otherwise write the formatted text.  Directory creation and the write are
modelled as succeeding; `existing` is the target file's prior contents. -/
def generateWrite (force : Bool) (confirmFunc : Option (String → Bool))
    (filePath : String) (existing : Option String) (formatted : String) : WriteOutcome :=
  match existing, confirmFunc with
  | some old, some f =>
    if !force then
      if f filePath then ⟨.ok, some formatted, 1⟩
      else ⟨.errSkipped, some old, 1⟩
    else ⟨.ok, some formatted, 0⟩
  | _, _ => ⟨.ok, some formatted, 0⟩

/-- Embedding of `Generator.Generate` (generator.go, primary variant) as
seen from the target file: render the struct, then apply the
overwrite/confirmation policy.  `go/format` is modelled as the identity on
the rendered text (the rendered declarations are well-formed). -/
def Generate (g : Generator) (table : Table) (existing : Option String) : WriteOutcome :=
  generateWrite g.force g.confirmFunc (targetPath g table) existing (generateStruct g table)

/-- Loop body of `toSnakeCase` at any position after the first: an
uppercase letter becomes an underscore followed by its lowercase form,
anything else passes through. -/
def tailStep (r : Char) : List Char :=
  if goIsUpper r then ['_', goToLower r] else [r]

/-- Placeholder column used as the default of `List.getD` when indexing
column lists. -/
def dfltCol : Column :=
  ⟨"", "", false, false, "", "", ""⟩

/-- Table `user_accounts` of the spec's section 8 worked example. -/
def userAccountsTable : Table :=
  ⟨"user_accounts",
   [⟨"id", "bigint", false, true, "PRI", "auto_increment", ""⟩,
    ⟨"username", "varchar", false, false, "", "", ""⟩,
    ⟨"email", "varchar", true, false, "", "", ""⟩,
    ⟨"created_at", "datetime", false, false, "", "", ""⟩,
    ⟨"deleted_at", "datetime", true, false, "", "", ""⟩]⟩

/-- Table with a single nullable timestamp column: under the second
variant's import collection its map holds two keys. -/
def softDeleteTable : Table :=
  ⟨"soft_delete", [⟨"deleted_at", "datetime", true, false, "", "", ""⟩]⟩

/-- Table with a single non-nullable timestamp column. -/
def eventsTable : Table :=
  ⟨"events", [⟨"created_at", "datetime", false, false, "", "", ""⟩]⟩

/-- Small table used to instantiate the write-policy theorems. -/
def usersTable : Table :=
  ⟨"users", [⟨"id", "bigint", false, false, "PRI", "", ""⟩]⟩

/-- Generator configured with the force flag set. -/
def genForce : Generator :=
  ⟨"models", "out", true, none⟩

/-- Generator with force unset and a confirmation callback that declines. -/
def genDecline : Generator :=
  ⟨"models", "out", false, some (fun _ => false)⟩

/-- Generator with force unset and a confirmation callback that accepts. -/
def genAccept : Generator :=
  ⟨"models", "out", false, some (fun _ => true)⟩

/-- Generator with force unset and no confirmation callback configured. -/
def genNoConfirm : Generator :=
  ⟨"models", "out", false, none⟩

/-- Helper combining case analysis over the whole switch: the code's base
type agrees with the spec table's on every string, and always lands in the
fixed finite set of Go type names. -/
theorem mysqlBaseType_master (s : String) (u : Bool) :
    mysqlBaseType s u = specBaseType s u ∧
    mysqlBaseType s u ∈
      ["int8", "int16", "int32", "int64", "uint8", "uint16", "uint32", "uint64",
       "float32", "float64", "string", "[]byte", "time.Time"] := by
  unfold mysqlBaseType specBaseType
  by_cases h1 : s = "tinyint"
  · subst h1; cases u <;> decide
  simp only [if_neg h1]
  by_cases h2 : s = "smallint"
  · subst h2; cases u <;> decide
  simp only [if_neg h2]
  by_cases h3 : s = "mediumint"
  · subst h3; cases u <;> decide
  simp only [if_neg h3]
  by_cases h4 : s = "int"
  · subst h4; cases u <;> decide
  simp only [if_neg h4]
  by_cases h5 : s = "integer"
  · subst h5; cases u <;> decide
  simp only [if_neg h5]
  by_cases h6 : s = "bigint"
  · subst h6; cases u <;> decide
  simp only [if_neg h6]
  by_cases h7 : s = "float"
  · subst h7; cases u <;> decide
  simp only [if_neg h7]
  by_cases h8 : s = "double"
  · subst h8; cases u <;> decide
  simp only [if_neg h8]
  by_cases h9 : s = "real"
  · subst h9; cases u <;> decide
  simp only [if_neg h9]
  by_cases h10 : s = "decimal"
  · subst h10; cases u <;> decide
  simp only [if_neg h10]
  by_cases h11 : s = "numeric"
  · subst h11; cases u <;> decide
  simp only [if_neg h11]
  by_cases h12 : s = "char"
  · subst h12; cases u <;> decide
  simp only [if_neg h12]
  by_cases h13 : s = "varchar"
  · subst h13; cases u <;> decide
  simp only [if_neg h13]
  by_cases h14 : s = "text"
  · subst h14; cases u <;> decide
  simp only [if_neg h14]
  by_cases h15 : s = "tinytext"
  · subst h15; cases u <;> decide
  simp only [if_neg h15]
  by_cases h16 : s = "mediumtext"
  · subst h16; cases u <;> decide
  simp only [if_neg h16]
  by_cases h17 : s = "longtext"
  · subst h17; cases u <;> decide
  simp only [if_neg h17]
  by_cases h18 : s = "enum"
  · subst h18; cases u <;> decide
  simp only [if_neg h18]
  by_cases h19 : s = "set"
  · subst h19; cases u <;> decide
  simp only [if_neg h19]
  by_cases h20 : s = "binary"
  · subst h20; cases u <;> decide
  simp only [if_neg h20]
  by_cases h21 : s = "varbinary"
  · subst h21; cases u <;> decide
  simp only [if_neg h21]
  by_cases h22 : s = "blob"
  · subst h22; cases u <;> decide
  simp only [if_neg h22]
  by_cases h23 : s = "tinyblob"
  · subst h23; cases u <;> decide
  simp only [if_neg h23]
  by_cases h24 : s = "mediumblob"
  · subst h24; cases u <;> decide
  simp only [if_neg h24]
  by_cases h25 : s = "longblob"
  · subst h25; cases u <;> decide
  simp only [if_neg h25]
  by_cases h26 : s = "datetime"
  · subst h26; cases u <;> decide
  simp only [if_neg h26]
  by_cases h27 : s = "timestamp"
  · subst h27; cases u <;> decide
  simp only [if_neg h27]
  by_cases h28 : s = "date"
  · subst h28; cases u <;> decide
  simp only [if_neg h28]
  by_cases h29 : s = "time"
  · subst h29; cases u <;> decide
  simp only [if_neg h29]
  by_cases h30 : s = "year"
  · subst h30; cases u <;> decide
  simp only [if_neg h30]
  by_cases h31 : s = "bit"
  · subst h31; cases u <;> decide
  simp only [if_neg h31]
  by_cases h32 : s = "json"
  · subst h32; cases u <;> decide
  simp only [if_neg h32]
  exact ⟨by first | rfl | trivial, by decide⟩

/-- Helper: on every type name the switch can produce, the nullable wrap is
a pointer star except on the byte-slice type. -/
theorem nullableWrap_on_baseTypes :
    ∀ b ∈ ["int8", "int16", "int32", "int64", "uint8", "uint16", "uint32", "uint64",
           "float32", "float64", "string", "[]byte", "time.Time"],
      nullableWrap b = if b = "[]byte" then b else "*" ++ b := by
  intro b hb
  fin_cases hb <;> decide

/-- C1: for every raw type name and both values of the unsigned flag, the
non-nullable result of `mysqlTypeToGo` is exactly the base type prescribed
by the spec's section 4.1 mapping table (`specBaseType`), including the
string fallback for every unrecognized raw type, with no error. -/
theorem mysqlTypeToGo_matches_spec_table (s : String) (u : Bool) :
    mysqlTypeToGo s false u = specBaseType s u := by
  show mysqlBaseType s u = specBaseType s u
  exact (mysqlBaseType_master s u).1

/-- C2: with the nullable flag unset no type is wrapped, and with it set
the mapped base type is pointer-wrapped except for the byte-slice types,
which stay unwrapped. -/
theorem mysqlTypeToGo_nullable_wrapping (s : String) (u : Bool) :
    mysqlTypeToGo s false u = mysqlBaseType s u ∧
    mysqlTypeToGo s true u =
      (if mysqlBaseType s u = "[]byte" then mysqlBaseType s u
       else "*" ++ mysqlBaseType s u) := by
  refine ⟨rfl, ?_⟩
  show nullableWrap (mysqlBaseType s u) = _
  exact nullableWrap_on_baseTypes _ (mysqlBaseType_master s u).2

/-- C9: the case converters are not round-trip safe in either direction:
an all-uppercase underscore-free name does not survive camel-then-snake,
and a single lowercase letter does not survive snake-then-camel. -/
theorem caseConversion_not_roundtrip_safe :
    toSnakeCase (toCamelCase "ABC") ≠ "ABC" ∧
    toCamelCase (toSnakeCase "a") ≠ "a" := by
  decide

/-- Unfolding equation for `splitUnderscore` on a non-empty string. -/
theorem splitUnderscore_cons (c : Char) (cs : List Char) :
    splitUnderscore (c :: cs) =
      if c = '_' then [] :: splitUnderscore cs
      else
        match splitUnderscore cs with
        | [] => [[c]]
        | p :: ps => (c :: p) :: ps := rfl

/-- Splitting always yields at least one segment. -/
theorem splitUnderscore_ne_nil (s : List Char) : splitUnderscore s ≠ [] := by
  cases s with
  | nil => simp [splitUnderscore]
  | cons c cs =>
    rw [splitUnderscore_cons]
    by_cases h : c = '_'
    · simp [h]
    · rw [if_neg h]
      cases splitUnderscore cs <;> simp

/-- Splitting distributes over an underscore: the segments of
`s ++ "_" ++ t` are the segments of `s` followed by those of `t`. -/
theorem splitUnderscore_append (s t : List Char) :
    splitUnderscore (s ++ '_' :: t) = splitUnderscore s ++ splitUnderscore t := by
  induction s with
  | nil => simp [splitUnderscore]
  | cons c cs ih =>
    rw [List.cons_append, splitUnderscore_cons, splitUnderscore_cons]
    by_cases h : c = '_'
    · rw [if_pos h, if_pos h, ih]
      simp
    · rw [if_neg h, if_neg h, ih]
      cases hcs : splitUnderscore cs with
      | nil => exact absurd hcs (splitUnderscore_ne_nil cs)
      | cons p ps => simp

/-- A string with no underscore is a single segment. -/
theorem splitUnderscore_no_underscore (s : List Char) (h : '_' ∉ s) :
    splitUnderscore s = [s] := by
  induction s with
  | nil => rfl
  | cons c cs ih =>
    have hc : ¬ c = '_' := by
      intro hh; subst hh; exact h (List.mem_cons_self _ _)
    have hcs : '_' ∉ cs := fun hh => h (List.mem_cons_of_mem _ hh)
    rw [splitUnderscore_cons, if_neg hc, ih hcs]

/-- Uppercasing an already-uppercase ASCII letter is the identity. -/
theorem goToUpper_of_upper (c : Char) (h : goIsUpper c = true) : goToUpper c = c := by
  have h' : 65 ≤ c.toNat ∧ c.toNat ≤ 90 := by simpa [goIsUpper] using h
  unfold goToUpper
  rw [if_neg (by omega)]

/-- Camel-casing splits at each underscore and concatenates the converted
halves. -/
theorem toCamelCaseL_split (s t : List Char) :
    toCamelCaseL (s ++ '_' :: t) = toCamelCaseL s ++ toCamelCaseL t := by
  unfold toCamelCaseL
  rw [splitUnderscore_append, List.map_append, List.flatten_append]

/-- On a single underscore-free segment, camel-casing uppercases the first
character and keeps the rest verbatim. -/
theorem toCamelCaseL_segment (c : Char) (cs : List Char)
    (hc : ¬ c = '_') (hcs : '_' ∉ cs) :
    toCamelCaseL (c :: cs) = goToUpper c :: cs := by
  unfold toCamelCaseL
  rw [splitUnderscore_no_underscore (c :: cs) (by
    intro hmem
    rcases List.mem_cons.mp hmem with h | h
    · exact hc h.symm
    · exact hcs h)]
  simp [camelSegment]

/-- An underscore-free all-uppercase string is a fixed point of
camel-casing. -/
theorem toCamelCaseL_upper_fixed (s : List Char) (hnu : '_' ∉ s)
    (hup : ∀ c ∈ s, goIsUpper c = true) : toCamelCaseL s = s := by
  cases s with
  | nil => rfl
  | cons c cs =>
    have hc : ¬ c = '_' := by
      intro hh
      subst hh
      have := hup '_' (List.mem_cons_self _ _)
      simp [goIsUpper] at this
    have hcs : '_' ∉ cs := fun hh => hnu (List.mem_cons_of_mem _ hh)
    rw [toCamelCaseL_segment c cs hc hcs,
      goToUpper_of_upper c (hup c (List.mem_cons_self _ _))]

/-- C7: `toCamelCase` is total and behaves as the spec states: empty maps
to empty, it splits on underscore and concatenates the converted segments
with no separator, it uppercases exactly the first character of a segment
leaving the rest unchanged, and an underscore-free all-uppercase input is
returned unchanged. -/
theorem toCamelCase_spec_behavior :
    toCamelCase "" = "" ∧
    (∀ s t : List Char, toCamelCaseL (s ++ '_' :: t) = toCamelCaseL s ++ toCamelCaseL t) ∧
    (∀ (c : Char) (cs : List Char), ¬ c = '_' → '_' ∉ cs →
      toCamelCaseL (c :: cs) = goToUpper c :: cs) ∧
    (∀ s : List Char, '_' ∉ s → (∀ c ∈ s, goIsUpper c = true) → toCamelCaseL s = s) :=
  ⟨by decide, toCamelCaseL_split, toCamelCaseL_segment, toCamelCaseL_upper_fixed⟩

/-- Witness for the camel-case theorem at concrete inputs: the word ab_c
splits at the underscore, ab uppercases only its first letter, and AB is
unchanged. -/
theorem toCamelCase_spec_behavior_witness :
    toCamelCaseL (['a', 'b'] ++ '_' :: ['c']) = toCamelCaseL ['a', 'b'] ++ toCamelCaseL ['c'] ∧
    toCamelCaseL ('a' :: ['b']) = goToUpper 'a' :: ['b'] ∧
    toCamelCaseL ['A', 'B'] = ['A', 'B'] :=
  ⟨toCamelCase_spec_behavior.2.1 ['a', 'b'] ['c'],
   toCamelCase_spec_behavior.2.2.1 'a' ['b'] (by decide) (by decide),
   toCamelCase_spec_behavior.2.2.2 ['A', 'B'] (by decide) (by decide)⟩

/-- From any positive position the snake-case loop emits, for each
character, an underscore-prefixed lowercase form of an uppercase letter
and everything else verbatim. -/
theorem snakeGo_pos (cs : List Char) (i : Nat) (hi : 0 < i) :
    snakeGo i cs = (cs.map tailStep).flatten := by
  induction cs generalizing i with
  | nil => rfl
  | cons r rest ih =>
    unfold snakeGo
    rw [if_pos hi, ih (i + 1) (Nat.succ_pos i)]
    by_cases hr : goIsUpper r <;> simp [hr, tailStep]

/-- C8: `toSnakeCase` is total and behaves as the spec states: empty maps
to empty; the first character is lowercased with no preceding underscore
when uppercase and passed through otherwise; every later character goes
through `tailStep`, which prefixes an underscore to the lowercase form of
each uppercase letter and passes everything else through, so each letter
of an uppercase run gets its own underscore (witnessed on ABC). -/
theorem toSnakeCase_spec_behavior :
    toSnakeCase "" = "" ∧
    (∀ (c : Char) (cs : List Char),
      toSnakeCaseL (c :: cs) =
        (if goIsUpper c then [goToLower c] else [c]) ++ (cs.map tailStep).flatten) ∧
    (∀ r : Char, tailStep r = if goIsUpper r then ['_', goToLower r] else [r]) ∧
    toSnakeCase "ABC" = "a_b_c" := by
  refine ⟨by decide, ?_, fun r => rfl, by decide⟩
  intro c cs
  show snakeGo 0 (c :: cs) = _
  unfold snakeGo
  rw [snakeGo_pos cs 1 (by decide)]
  by_cases hc : goIsUpper c <;> simp [hc]

/-- The buffer-append loop of `generateStruct` renders exactly the
concatenation of the per-column field lines. -/
theorem structFieldsText_eq (cols : List Column) :
    structFieldsText cols = String.join (cols.map fieldLine) := by
  rw [String.join, List.foldl_map]
  rfl

/-- Indexing the rendered field lines agrees with indexing the columns. -/
theorem fieldLines_getD (cols : List Column) (i : Nat) (h : i < cols.length) :
    (cols.map fieldLine).getD i "" = fieldLine (cols.getD i dfltCol) := by
  induction cols generalizing i with
  | nil => simp at h
  | cons c cs ih =>
    cases i with
    | zero => simp
    | succ j =>
      have hj : j < cs.length := by simpa using h
      simpa using ih j hj

/-- C3: the emitted declaration consists of the package clause, the import
block, the type header, and then exactly one field line per column in
column ordinal order, where the field line of a column is its camel-cased
name, its mapped type, and a db tag carrying the exact original column
name. -/
theorem generateStruct_fields_in_column_order (g : Generator) (t : Table) :
    generateStruct g t =
      "package " ++ g.packageName ++ "\n\n"
        ++ importBlock (collectImports t.Columns)
        ++ "type " ++ toCamelCase t.Name ++ " struct \x7b\n"
        ++ String.join (t.Columns.map fieldLine)
        ++ "\x7d\n" ∧
    (t.Columns.map fieldLine).length = t.Columns.length ∧
    (∀ i, i < t.Columns.length →
      (t.Columns.map fieldLine).getD i "" = fieldLine (t.Columns.getD i dfltCol)) ∧
    (∀ col : Column, fieldLine col =
      "\t" ++ toCamelCase col.Name ++ " "
        ++ mysqlTypeToGo col.DataType col.IsNullable col.IsUnsigned
        ++ " `db:\"" ++ col.Name ++ "\"`\n") := by
  refine ⟨?_, List.length_map _ _, fieldLines_getD t.Columns, fun col => rfl⟩
  unfold generateStruct
  rw [structFieldsText_eq]

/-- Witness for the field-order theorem on the user_accounts table,
checking the second field line (index 1) and the rendered text. -/
theorem generateStruct_fields_witness :
    generateStruct genForce userAccountsTable =
      "package " ++ genForce.packageName ++ "\n\n"
        ++ importBlock (collectImports userAccountsTable.Columns)
        ++ "type " ++ toCamelCase userAccountsTable.Name ++ " struct \x7b\n"
        ++ String.join (userAccountsTable.Columns.map fieldLine)
        ++ "\x7d\n" ∧
    (userAccountsTable.Columns.map fieldLine).getD 1 ""
      = fieldLine (userAccountsTable.Columns.getD 1 dfltCol) :=
  ⟨(generateStruct_fields_in_column_order genForce userAccountsTable).1,
   (generateStruct_fields_in_column_order genForce userAccountsTable).2.2.1 1 (by decide)⟩

/-- C4: on the user_accounts example table the emitted declaration is
named UserAccounts, has precisely five field lines in column order with id
mapped to uint64, email to an optional string, created_at to a plain
time.Time and deleted_at to an optional time.Time, and the import list is
exactly the single timestamp dependency. -/
theorem userAccounts_emission :
    toCamelCase userAccountsTable.Name = "UserAccounts" ∧
    userAccountsTable.Columns.length = 5 ∧
    userAccountsTable.Columns.map fieldLine =
      ["\tId uint64 `db:\"id\"`\n",
       "\tUsername string `db:\"username\"`\n",
       "\tEmail *string `db:\"email\"`\n",
       "\tCreatedAt time.Time `db:\"created_at\"`\n",
       "\tDeletedAt *time.Time `db:\"deleted_at\"`\n"] ∧
    collectImports userAccountsTable.Columns = ["time"] := by
  decide

/-- Under the primary variant the import map only ever holds the single
key time, so its key list is empty or that singleton. -/
theorem collectImportsKeys_cases (cols : List Column) :
    collectImportsKeys cols = [] ∨ collectImportsKeys cols = ["time"] := by
  have main : ∀ (l : List Column) (m : List String), (m = [] ∨ m = ["time"]) →
      (l.foldl (fun m col => if isTimeType col.DataType then insertKey "time" m else m) m = []
        ∨ l.foldl (fun m col => if isTimeType col.DataType then insertKey "time" m else m) m
            = ["time"]) := by
    intro l
    induction l with
    | nil => intro m hm; exact hm
    | cons c cs ih =>
      intro m hm
      rw [List.foldl_cons]
      apply ih
      rcases hm with h | h <;> subst h <;>
        by_cases hc : isTimeType c.DataType = true <;>
        simp [hc, insertKey]
  exact main cols [] (Or.inl rfl)

/-- C5 counterexample: under the second variant's import collection, a
table with one nullable timestamp column places the two keys time and
database/sql in the import map, and both enumeration orders of that map
are admissible results of Go's range loop, so two emissions of the same
table need not produce the imports in the same order. -/
theorem collectImports2_order_unstable :
    mapRangeResult (collectImportsKeys2 softDeleteTable.Columns) ["time", "database/sql"] ∧
    mapRangeResult (collectImportsKeys2 softDeleteTable.Columns) ["database/sql", "time"] ∧
    ¬ (["time", "database/sql"] = (["database/sql", "time"] : List String)) := by
  have hkeys : collectImportsKeys2 softDeleteTable.Columns = ["time", "database/sql"] := by
    decide
  refine ⟨?_, ?_, by decide⟩
  · show (["time", "database/sql"] : List String).Perm (collectImportsKeys2 softDeleteTable.Columns)
    rw [hkeys]
  · show (["database/sql", "time"] : List String).Perm (collectImportsKeys2 softDeleteTable.Columns)
    rw [hkeys]
    exact List.Perm.swap _ _ _

/-- C5 amended: for the primary variant the import map holds at most the
single key time, so every admissible enumeration of it is the same list
and the emitted import sequence is deterministic across runs. -/
theorem collectImports_enumeration_deterministic (t : Table) (e₁ e₂ : List String)
    (h₁ : mapRangeResult (collectImportsKeys t.Columns) e₁)
    (h₂ : mapRangeResult (collectImportsKeys t.Columns) e₂) :
    e₁ = e₂ ∧ e₁ = collectImports t.Columns := by
  have hh : ∀ e : List String, mapRangeResult (collectImportsKeys t.Columns) e →
      e = collectImportsKeys t.Columns := by
    intro e he
    rcases collectImportsKeys_cases t.Columns with h | h <;> rw [h] at he ⊢
    · exact List.perm_nil.mp he
    · exact List.perm_singleton.mp he
  rw [hh e₁ h₁, hh e₂ h₂]
  exact ⟨rfl, rfl⟩

/-- Witness for the import-determinism theorem on a table with one
timestamp column: time is the unique enumeration. -/
theorem collectImports_enumeration_deterministic_witness :
    (["time"] : List String) = ["time"] ∧
    (["time"] : List String) = collectImports eventsTable.Columns :=
  collectImports_enumeration_deterministic eventsTable ["time"] ["time"]
    (by show (["time"] : List String).Perm (collectImportsKeys eventsTable.Columns)
        decide)
    (by show (["time"] : List String).Perm (collectImportsKeys eventsTable.Columns)
        decide)

/-- C6: on a pre-existing target file, force overwrites unconditionally
without consulting the callback; without force a declining confirmation
callback yields the distinct skipped outcome with the old contents intact
after exactly one invocation; an accepting callback yields an overwrite
after exactly one invocation. -/
theorem generate_overwrite_confirmation_policy (g : Generator) (t : Table)
    (old : String) (f : String → Bool) :
    (g.force = true → Generate g t (some old) =
      ⟨.ok, some (generateStruct g t), 0⟩) ∧
    (g.force = false → g.confirmFunc = some f → f (targetPath g t) = false →
      Generate g t (some old) = ⟨.errSkipped, some old, 1⟩) ∧
    (g.force = false → g.confirmFunc = some f → f (targetPath g t) = true →
      Generate g t (some old) = ⟨.ok, some (generateStruct g t), 1⟩) := by
  refine ⟨fun hf => ?_, fun hf hc hdecl => ?_, fun hf hc hacc => ?_⟩
  · cases hcf : g.confirmFunc with
    | none => simp [Generate, generateWrite, hcf]
    | some f' => simp [Generate, generateWrite, hcf, hf]
  · simp [Generate, generateWrite, hc, hf, hdecl]
  · simp [Generate, generateWrite, hc, hf, hacc]

/-- Witness for the overwrite policy at concrete generators: forced
overwrite, declined confirmation, and accepted confirmation. -/
theorem generate_overwrite_policy_witness :
    Generate genForce usersTable (some "old") =
      ⟨.ok, some (generateStruct genForce usersTable), 0⟩ ∧
    Generate genDecline usersTable (some "old") = ⟨.errSkipped, some "old", 1⟩ ∧
    Generate genAccept usersTable (some "old") =
      ⟨.ok, some (generateStruct genAccept usersTable), 1⟩ :=
  ⟨(generate_overwrite_confirmation_policy genForce usersTable "old" (fun _ => false)).1 rfl,
   (generate_overwrite_confirmation_policy genDecline usersTable "old"
     (fun _ => false)).2.1 rfl rfl rfl,
   (generate_overwrite_confirmation_policy genAccept usersTable "old"
     (fun _ => true)).2.2 rfl rfl rfl⟩

/-- C10: with the force flag unset and no confirmation callback
configured, a pre-existing target file is overwritten and success
reported; dually, the skipped outcome only ever arises with force unset,
an existing file, and a configured callback that declined. -/
theorem generate_no_confirm_overwrites (g : Generator) (t : Table) (old : String) :
    (g.force = false → g.confirmFunc = none →
      Generate g t (some old) = ⟨.ok, some (generateStruct g t), 0⟩) ∧
    (∀ existing : Option String,
      (Generate g t existing).result = .errSkipped →
        g.force = false ∧ existing.isSome = true ∧
        ∃ f, g.confirmFunc = some f ∧ f (targetPath g t) = false) := by
  constructor
  · intro _ hc
    simp [Generate, generateWrite, hc]
  · intro existing h
    cases existing with
    | none => simp [Generate, generateWrite] at h
    | some old' =>
      cases hc : g.confirmFunc with
      | none => simp [Generate, generateWrite, hc] at h
      | some f =>
        cases hforce : g.force with
        | true => simp [Generate, generateWrite, hc, hforce] at h
        | false =>
          cases hfp : f (targetPath g t) with
          | true => simp [Generate, generateWrite, hc, hforce, hfp] at h
          | false => exact ⟨rfl, rfl, f, rfl, hfp⟩

/-- Witness for the implicit-force behavior and for the provenance of the
skipped outcome at concrete generators. -/
theorem generate_no_confirm_overwrites_witness :
    Generate genNoConfirm usersTable (some "old") =
      ⟨.ok, some (generateStruct genNoConfirm usersTable), 0⟩ ∧
    (genDecline.force = false ∧ (some "old" : Option String).isSome = true ∧
      ∃ f, genDecline.confirmFunc = some f ∧
        f (targetPath genDecline usersTable) = false) :=
  ⟨(generate_no_confirm_overwrites genNoConfirm usersTable "old").1 rfl rfl,
   (generate_no_confirm_overwrites genDecline usersTable "old").2 (some "old") rfl⟩
